import Mathlib

/-! # AGP WebSocket session engine: a shallow embedding

Definitions are translated from the TypeScript sources of the AGP
WebSocket channel:

* the WebSocket client (connection manager: lifecycle state, dedup cache,
  reconnect backoff, heartbeat timers, inbound dispatch),
* `websocket/message-handler.ts` (turn registry, cancellation, agent-event
  translation),
* `websocket/types.ts` (wire protocol shapes).

Modelling conventions:

* Opaque identifiers (`msg_id`, `session_id`, `prompt_id`, tool ids,
  tool names) are `String`.
* Streamed text is `List Char` (JS strings under concatenation, `slice`
  and `length`; JS `slice(n)` is `List.drop n`).
* JS truthiness on optional strings/booleans is made explicit
  (`undefined`, `null`, `""` and `false` are falsy).
* Node timers are modelled as armed/disarmed flags; the backoff delay a
  timer would be armed with is returned explicitly.
* A JS `Set<string>` iterates in insertion order, so the dedup cache is
  a duplicate-free `List String` in insertion order; `[...set]` is the
  list itself and `set.clear()` followed by re-adding is a fold of adds.
* JS `Map` objects are association lists with at most one binding per
  key; the mutable `ActiveTurn` objects shared between `handlePrompt`'s
  closure and `handleCancel` live in an explicit heap of numbered cells,
  and the registry maps `prompt_id` to a cell number.
-/

namespace AGP

/-- Wire methods of the AGP envelope (`AGPMethod` in types.ts). -/
inductive Method where
  | sessionPrompt
  | sessionCancel
  | sessionUpdate
  | sessionPromptResponse
  | ping
  deriving DecidableEq, Repr

/-- The part of a decoded inbound envelope that `handleRawMessage`
inspects: `msg_id` (the dedup key) and `method` (the dispatch key).
The payload and the echoed routing fields (`guid`, `user_id`, `token`)
are opaque to the connection manager and omitted. -/
structure Envelope where
  msg_id : String
  method : Method
  deriving DecidableEq, Repr

/-- Which methods reach a registered handler callback in the
`switch (envelope.method)` of `handleRawMessage`: `session.prompt` goes
to `onPrompt`, `session.cancel` to `onCancel`; every other method only
logs a warning. -/
def dispatchesToHandler : Method → Bool
  | .sessionPrompt => true
  | .sessionCancel => true
  | _ => false

/-! ## Dedup cache (`processedMsgIds` in the WebSocket client) -/

/-- `MAX_MSG_ID_CACHE` — the ceiling of the processed-message-id cache. -/
def MAX_MSG_ID_CACHE : Nat := 1000

/-- `processedMsgIds.add(id)` — JS `Set.add` keeps insertion order and
ignores duplicates. -/
def recordMsgId (cache : List String) (id : String) : List String :=
  if id ∈ cache then cache else cache ++ [id]

/-- Adding a whole sequence of ids in order (`forEach`/repeated `add`). -/
def recordAllMsgIds (cache : List String) (ids : List String) : List String :=
  ids.foldl recordMsgId cache

/-- One run of the cleanup body installed by `startMsgIdCleanup`: when
the set holds more than `MAX_MSG_ID_CACHE` entries, take the insertion
order snapshot `[...set]`, clear the set, and re-add only the slice
`slice(-MAX_MSG_ID_CACHE / 2)` (the most recently inserted half). -/
def msgIdSweep (cache : List String) : List String :=
  if cache.length > MAX_MSG_ID_CACHE then
    recordAllMsgIds [] (cache.drop (cache.length - MAX_MSG_ID_CACHE / 2))
  else cache

/-! ## Connection manager state -/

/-- `ConnectionState` in types.ts. -/
inductive ConnState where
  | disconnected
  | connecting
  | connected
  | reconnecting
  deriving DecidableEq, Repr

/-- The client configuration fields the modelled operations read
(`WebSocketClientConfig` after constructor defaulting). Intervals are
milliseconds as exact rationals. -/
structure WSConfig where
  reconnectInterval : ℚ
  maxReconnectAttempts : Nat
  heartbeatInterval : ℚ
  deriving DecidableEq, Repr

/-- The mutable fields of the WebSocket client. `wsOpen` models
`this.ws !== null`; the three `…Timer` flags model whether the
corresponding Node timer handle is set. -/
structure ClientState where
  state : ConnState
  reconnectAttempts : Nat
  processedMsgIds : List String
  wsOpen : Bool
  reconnectTimer : Bool
  heartbeatTimer : Bool
  msgIdCleanupTimer : Bool
  deriving DecidableEq, Repr

/-- Field initializers of the client class. -/
def ClientState.initial : ClientState :=
  ⟨.disconnected, 0, [], false, false, false, false⟩

/-- `connect()` — sets state to "connecting" and creates the socket
(handler wiring has no model content; connection success arrives later
as `handleOpen`). -/
def ClientState.connect (s : ClientState) : ClientState :=
  { s with state := .connecting, wsOpen := true }

/-- `startMsgIdCleanup()` — arms the periodic cleanup timer. -/
def ClientState.startMsgIdCleanup (s : ClientState) : ClientState :=
  { s with msgIdCleanupTimer := true }

/-- `start()` — no-op when already connected or connecting; otherwise
`connect()` then `startMsgIdCleanup()`. -/
def ClientState.start (s : ClientState) : ClientState :=
  if s.state = .connected ∨ s.state = .connecting then s
  else s.connect.startMsgIdCleanup

/-- `stop()` — state to "disconnected", clear the reconnect, heartbeat
and cleanup timers, clear `processedMsgIds`, close and drop the socket. -/
def ClientState.stop (s : ClientState) : ClientState :=
  { s with
      state := .disconnected
      reconnectTimer := false
      heartbeatTimer := false
      msgIdCleanupTimer := false
      processedMsgIds := []
      wsOpen := false }

/-- `handleOpen()` — on a successful transport open: state "connected",
reconnect counter reset to 0, heartbeat timer armed. -/
def ClientState.handleOpen (s : ClientState) : ClientState :=
  { s with state := .connected, reconnectAttempts := 0, heartbeatTimer := true }

/-- `handleRawMessage` after JSON decoding: drop the envelope silently
when its `msg_id` was already processed; otherwise record the id and
dispatch by `method` (`session.prompt` → `onPrompt`,
`session.cancel` → `onCancel`, anything else only logs). The second
component lists the envelopes handed to a handler callback. -/
def ClientState.handleRawMessage (s : ClientState) (e : Envelope) :
    ClientState × List Envelope :=
  if e.msg_id ∈ s.processedMsgIds then (s, [])
  else
    let s := { s with processedMsgIds := s.processedMsgIds ++ [e.msg_id] }
    match e.method with
    | .sessionPrompt => (s, [e])
    | .sessionCancel => (s, [e])
    | _ => (s, [])

/-- Delivering a sequence of inbound envelopes to `handleRawMessage`,
collecting every handler invocation in order. -/
def processMessages (s : ClientState) : List Envelope → ClientState × List Envelope
  | [] => (s, [])
  | e :: es =>
    let p := s.handleRawMessage e
    let q := processMessages p.1 es
    (q.1, p.2 ++ q.2)

/-- The backoff delay armed for the n-th scheduled reconnect:
`Math.min(reconnectInterval * Math.pow(1.5, attempts - 1), 25000)`
with `attempts = n`. All values are exactly representable, so the JS
doubles are modelled by exact rationals. -/
def reconnectDelay (base : ℚ) (n : Nat) : ℚ :=
  min (base * (3 / 2) ^ (n - 1)) 25000

/-- `scheduleReconnect()` — when a positive `maxReconnectAttempts` is
already reached, give up and go "disconnected" (no timer armed);
otherwise increment `reconnectAttempts`, go "reconnecting" and arm the
reconnect timer with the backoff delay, which is returned. -/
def scheduleReconnect (cfg : WSConfig) (s : ClientState) : ClientState × Option ℚ :=
  if 0 < cfg.maxReconnectAttempts ∧ cfg.maxReconnectAttempts ≤ s.reconnectAttempts then
    ({ s with state := .disconnected }, none)
  else
    let attempts := s.reconnectAttempts + 1
    ({ s with state := .reconnecting, reconnectAttempts := attempts, reconnectTimer := true },
     some (reconnectDelay cfg.reconnectInterval attempts))

/-! ## Wire shapes of outbound messages (types.ts) -/

/-- `ContentBlock` — `{type:"text", text}`; the tag is constant so only
the text is carried. -/
structure ContentBlock where
  text : List Char
  deriving DecidableEq, Repr

/-- `StopReason` in types.ts. -/
inductive StopReason where
  | end_turn
  | cancelled
  | refusal
  | error
  deriving DecidableEq, Repr

/-- `PromptResponsePayload` — the terminal `session.promptResponse`
payload. `content = none` models an absent field, `some []` an empty
array. -/
structure PromptResponsePayload where
  session_id : String
  prompt_id : String
  stop_reason : StopReason
  content : Option (List ContentBlock)
  error : Option String
  deriving DecidableEq, Repr

/-- `ToolCallStatus` in types.ts. -/
inductive ToolCallStatus where
  | pending
  | in_progress
  | completed
  | failed
  deriving DecidableEq, Repr

/-- `ToolCallKind` in types.ts. -/
inductive ToolCallKind where
  | read
  | edit
  | delete
  | execute
  | search
  | fetch
  | think
  | other
  deriving DecidableEq, Repr

/-- `ToolCall` in types.ts (the `locations` field is never set by the
message handler and is omitted). -/
structure ToolCall where
  tool_call_id : String
  title : Option String
  kind : Option ToolCallKind
  status : ToolCallStatus
  content : Option (List ContentBlock)
  deriving DecidableEq, Repr

/-- `UpdateType` in types.ts. -/
inductive UpdateType where
  | message_chunk
  | tool_call
  | tool_call_update
  deriving DecidableEq, Repr

/-- `UpdatePayload` — the streaming `session.update` payload. -/
structure UpdatePayload where
  session_id : String
  prompt_id : String
  update_type : UpdateType
  content : Option ContentBlock
  tool_call : Option ToolCall
  deriving DecidableEq, Repr

/-! ## JS truthiness -/

/-- JS truthiness of an optional string: `undefined`/`null` and `""`
are falsy. -/
def truthyStr : Option String → Bool
  | none => false
  | some s => !(s == "")

/-- JS truthiness of an optional string modelled as `List Char`. -/
def truthyText : Option (List Char) → Bool
  | none => false
  | some t => !t.isEmpty

/-! ## Tool-kind classification (`mapToolKind` in message-handler.ts) -/

/-- JS `String.prototype.includes`. -/
def strIncludes (s sub : String) : Bool :=
  decide (sub.toList <:+: s.toList)

/-- `mapToolKind` — keyword classification of a tool name, checked in
source order on the lower-cased name; a falsy name gives `other`. -/
def mapToolKind (toolName : Option String) : ToolCallKind :=
  if !truthyStr toolName then .other
  else
    let name := (toolName.getD "").toLower
    if strIncludes name "read" || strIncludes name "get" || strIncludes name "view" then .read
    else if strIncludes name "write" || strIncludes name "edit" || strIncludes name "replace" then .edit
    else if strIncludes name "delete" || strIncludes name "remove" then .delete
    else if strIncludes name "search" || strIncludes name "find" || strIncludes name "grep" then .search
    else if strIncludes name "fetch" || strIncludes name "request" || strIncludes name "http" then .fetch
    else if strIncludes name "think" || strIncludes name "reason" then .think
    else if strIncludes name "exec" || strIncludes name "run" || strIncludes name "terminal" then .execute
    else .other

/-! ## Association lists (JS `Map` and the object heap) -/

/-- First (and, by construction, only) binding for `k`. -/
def alistGet [BEq α] (l : List (α × β)) (k : α) : Option β :=
  (l.find? (fun p => p.1 == k)).map (·.2)

/-- `Map.set` — at most one binding per key is kept. -/
def alistSet [BEq α] (l : List (α × β)) (k : α) (v : β) : List (α × β) :=
  (k, v) :: l.filter (fun p => !(p.1 == k))

/-- `Map.delete`. -/
def alistRemove [BEq α] (l : List (α × β)) (k : α) : List (α × β) :=
  l.filter (fun p => !(p.1 == k))

/-- In-place mutation of the value bound to `k` (a JS field write
through a reference). -/
def alistUpdate [BEq α] (l : List (α × β)) (k : α) (f : β → β) : List (α × β) :=
  l.map (fun p => if p.1 == k then (p.1, f p.2) else p)

/-! ## Turn registry and the prompt/cancel engine (message-handler.ts) -/

/-- `ActiveTurn` — one registered prompt Turn. The `unsubscribe` closure
is released when the Turn ends and carries no model content. -/
structure ActiveTurn where
  sessionId : String
  promptId : String
  cancelled : Bool
  deriving DecidableEq, Repr

/-- The observable state of the message-handler module: the heap of
`ActiveTurn` objects (numbered cells, since `handlePrompt`'s closure and
`handleCancel` mutate the same object through the `activeTurns` map),
the `activeTurns` map (`promptId` → cell), the `session.promptResponse`
payloads sent so far in order, and the agent dispatch calls started so
far (`(sessionId, promptId)` each). -/
structure EngineState where
  turnHeap : List (Nat × ActiveTurn)
  nextRef : Nat
  activeTurns : List (String × Nat)
  sent : List PromptResponsePayload
  dispatchCalls : List (String × String)
  deriving DecidableEq, Repr

/-- Module state at load: empty map, nothing sent. -/
def EngineState.initial : EngineState := ⟨[], 0, [], [], []⟩

/-- Reading `turn.cancelled` through a cell reference. -/
def turnCancelled (s : EngineState) (r : Nat) : Bool :=
  ((alistGet s.turnHeap r).map ActiveTurn.cancelled).getD false

/-- The per-dispatch closure context of `handlePrompt`: the captured
`turn` reference and ids, plus the closure-local mutables
`lastEmittedText` and `toolCallCounter`. -/
structure DispatchCtx where
  ref : Nat
  sessionId : String
  promptId : String
  lastEmittedText : List Char
  toolCallCounter : Nat
  deriving DecidableEq, Repr

/-- The synchronous prefix of `handlePrompt` for an accepted
`session.prompt`: allocate a fresh `ActiveTurn{cancelled:false}`,
register it under `prompt_id` (`activeTurns.set` — overwriting any
existing binding), subscribe, and start the agent dispatch call. The
returned context is what the rest of `handlePrompt` (the event callback
and the code after the `await`) closes over. -/
def promptAccepted (s : EngineState) (sessionId promptId : String) :
    EngineState × DispatchCtx :=
  let r := s.nextRef
  ({ s with
      turnHeap := alistSet s.turnHeap r ⟨sessionId, promptId, false⟩
      nextRef := r + 1
      activeTurns := alistSet s.activeTurns promptId r
      dispatchCalls := s.dispatchCalls ++ [(sessionId, promptId)] },
   ⟨r, sessionId, promptId, [], 0⟩)

/-- `handleCancel` — look the Turn up by `prompt_id`; when absent, still
send a `cancelled` response; when present, set `cancelled := true` on
the shared object, unsubscribe, remove the map entry, and send a
`cancelled` response. -/
def handleCancel (s : EngineState) (sessionId promptId : String) : EngineState :=
  match alistGet s.activeTurns promptId with
  | none =>
    { s with sent := s.sent ++ [⟨sessionId, promptId, .cancelled, none, none⟩] }
  | some r =>
    { s with
        turnHeap := alistUpdate s.turnHeap r (fun t => { t with cancelled := true })
        activeTurns := alistRemove s.activeTurns promptId
        sent := s.sent ++ [⟨sessionId, promptId, .cancelled, none, none⟩] }

/-- The code after the `await` of the dispatch call resolving normally:
unsubscribe, delete the registry entry, then — if the captured `turn`
object was marked cancelled meanwhile — send a `cancelled` response
without content, else send `end_turn` whose content is
`finalText ? [{type:"text", text: finalText}] : []`. -/
def dispatchResolve (s : EngineState) (c : DispatchCtx) (finalText : Option (List Char)) :
    EngineState :=
  let s := { s with activeTurns := alistRemove s.activeTurns c.promptId }
  if turnCancelled s c.ref then
    { s with sent := s.sent ++ [⟨c.sessionId, c.promptId, .cancelled, none, none⟩] }
  else
    let responseContent : List ContentBlock :=
      if truthyText finalText then [⟨finalText.getD []⟩] else []
    { s with sent := s.sent ++ [⟨c.sessionId, c.promptId, .end_turn, some responseContent, none⟩] }

/-- The `catch` branch of `handlePrompt`: unsubscribe, delete the
registry entry, send an `error` response with the message. -/
def dispatchReject (s : EngineState) (c : DispatchCtx) (msg : String) : EngineState :=
  { s with
      activeTurns := alistRemove s.activeTurns c.promptId
      sent := s.sent ++ [⟨c.sessionId, c.promptId, .error, none, some msg⟩] }

/-- The `assistant`-stream branch of the `onAgentEvent` callback.
`data.delta` and `data.text` may each be absent. A cancelled Turn drops
the event. Otherwise: `textToSend = delta`; if that is falsy and `text`
is truthy and differs from `lastEmittedText`, the suffix beyond the
cursor is computed and the cursor advanced to the whole cumulative text;
else a truthy delta is appended to the cursor; finally a truthy
`textToSend` is sent as a `message_chunk` update. -/
def onAssistantEvent (s : EngineState) (c : DispatchCtx) (delta text : Option (List Char)) :
    DispatchCtx × Option UpdatePayload :=
  if turnCancelled s c.ref then (c, none)
  else if !truthyText delta && truthyText text && text != some c.lastEmittedText then
    let t := text.getD []
    let textToSend := t.drop c.lastEmittedText.length
    ({ c with lastEmittedText := t },
     if truthyText (some textToSend) then
       some ⟨c.sessionId, c.promptId, .message_chunk, some ⟨textToSend⟩, none⟩
     else none)
  else if truthyText delta then
    let d := delta.getD []
    ({ c with lastEmittedText := c.lastEmittedText ++ d },
     some ⟨c.sessionId, c.promptId, .message_chunk, some ⟨d⟩, none⟩)
  else (c, none)

/-- The fields of a `tool`-stream event the callback reads. -/
structure ToolEventData where
  phase : Option String
  name : Option String
  toolCallId : Option String
  text : Option (List Char)
  result : Option (List Char)
  isError : Option Bool
  deriving DecidableEq, Repr

/-- The `tool`-stream branch of the `onAgentEvent` callback. A cancelled
Turn drops the event. Otherwise the id is
`(data.toolCallId as string) || "tc-" + (++toolCallCounter)` — the
counter is pre-incremented on every event whose `toolCallId` is falsy —
and the phase selects a `tool_call` (start) or `tool_call_update`
(update/result) emission; an unrecognized phase emits nothing. -/
def onToolEvent (s : EngineState) (c : DispatchCtx) (d : ToolEventData) :
    DispatchCtx × Option UpdatePayload :=
  if turnCancelled s c.ref then (c, none)
  else
    let idCounter : String × Nat :=
      if truthyStr d.toolCallId then (d.toolCallId.getD "", c.toolCallCounter)
      else ("tc-" ++ toString (c.toolCallCounter + 1), c.toolCallCounter + 1)
    let toolCallId := idCounter.1
    let c := { c with toolCallCounter := idCounter.2 }
    if d.phase == some "start" then
      (c, some ⟨c.sessionId, c.promptId, .tool_call, none,
        some ⟨toolCallId, d.name, some (mapToolKind d.name), .in_progress, none⟩⟩)
    else if d.phase == some "update" then
      (c, some ⟨c.sessionId, c.promptId, .tool_call_update, none,
        some ⟨toolCallId, d.name, none, .in_progress,
          if truthyText d.text then some [⟨d.text.getD []⟩] else none⟩⟩)
    else if d.phase == some "result" then
      (c, some ⟨c.sessionId, c.promptId, .tool_call_update, none,
        some ⟨toolCallId, d.name, none,
          (if d.isError == some true then .failed else .completed),
          if truthyText d.result then some [⟨d.result.getD []⟩] else none⟩⟩)
    else (c, none)

/-! ## Concrete scenario instances used by the theorems below -/

/-- The tool-call id carried by an emitted update, if any. -/
def updateToolId (u : Option UpdatePayload) : Option String :=
  (u.bind UpdatePayload.tool_call).map ToolCall.tool_call_id

/-- Cancel race: a prompt is accepted, `session.cancel` is processed
while the dispatch call is still in flight, then the dispatch resolves
normally with final text. -/
def raceFinal : EngineState :=
  let p := promptAccepted EngineState.initial "sess-1" "prompt-1"
  dispatchResolve (handleCancel p.1 "sess-1" "prompt-1") p.2 (some "final answer".toList)

/-- Re-delivery with a fresh `msg_id`: the same `(session_id, prompt_id)`
prompt is accepted twice in a row. -/
def duplicatePromptRun : EngineState × DispatchCtx :=
  promptAccepted (promptAccepted EngineState.initial "sess-1" "prompt-1").1 "sess-1" "prompt-1"

/-- A tool `start` event with no runtime-supplied `toolCallId`. -/
def toolStartEmission : DispatchCtx × Option UpdatePayload :=
  let p := promptAccepted EngineState.initial "sess-1" "prompt-1"
  onToolEvent p.1 p.2 ⟨some "start", some "read_file", none, none, none, none⟩

/-- The matching `result` event of the same invocation, also without a
`toolCallId`, processed with the context left by the `start` event. -/
def toolResultEmission : DispatchCtx × Option UpdatePayload :=
  let p := promptAccepted EngineState.initial "sess-1" "prompt-1"
  onToolEvent p.1 toolStartEmission.1 ⟨some "result", some "read_file", none, none,
    some "contents".toList, none⟩

/-- One inbound prompt envelope. -/
def replayedPrompt : Envelope := ⟨"m1", .sessionPrompt⟩

/-- The same envelope delivered three times. -/
def replayedStream : List Envelope := [replayedPrompt, replayedPrompt, replayedPrompt]

/-- A client configuration with the default base interval of 3000 ms and
unlimited reconnects. -/
def backoffConfig : WSConfig := ⟨3000, 0, 20000⟩

/-- An accepted prompt whose dispatch context is still fresh. -/
def chunkRun : EngineState × DispatchCtx := promptAccepted EngineState.initial "s1" "p1"

/-- The dispatch context after one cumulative-only assistant event
carrying the text "Hi". -/
def chunkCtx : DispatchCtx := (onAssistantEvent chunkRun.1 chunkRun.2 none (some "Hi".toList)).1

/-- A started client that has processed the envelope `"m1"`. -/
def processedClient : ClientState :=
  (ClientState.initial.start.handleRawMessage ⟨"m1", .sessionPrompt⟩).1

/-- 1001 pairwise-distinct message ids. -/
def bigIds : List String := (List.range 1001).map (fun n => String.mk (List.replicate n 'a'))

/-! ## Helper lemmas -/

theorem alistGet_set_self [BEq α] [LawfulBEq α] (l : List (α × β)) (k : α) (v : β) :
    alistGet (alistSet l k v) k = some v := by
  simp [alistGet, alistSet, List.find?]

theorem alistGet_update_self [BEq α] [LawfulBEq α] (l : List (α × β)) (k : α) (f : β → β) :
    alistGet (alistUpdate l k f) k = (alistGet l k).map f := by
  induction l with
  | nil => rfl
  | cons p l ih =>
    by_cases h : p.1 == k
    · simp [alistUpdate, alistGet, List.find?_cons, h]
    · have hf : (p.1 == k) = false := by simpa using h
      simp [alistUpdate, alistGet, List.find?_cons, hf]
      simpa [alistUpdate, alistGet] using ih

theorem alistSet_filter_self [BEq α] [LawfulBEq α] (l : List (α × β)) (k : α) (v : β) :
    (alistSet l k v).filter (fun q => q.1 == k) = [(k, v)] := by
  simp [alistSet, List.filter_filter]

theorem recordAllMsgIds_of_nodup : ∀ (ids cache : List String), ids.Nodup →
    (∀ i ∈ ids, i ∉ cache) → recordAllMsgIds cache ids = cache ++ ids
  | [], cache, _, _ => by simp [recordAllMsgIds]
  | i :: ids, cache, hnd, hdisj => by
    have hi : i ∉ cache := hdisj i (by simp)
    have hnd' := List.nodup_cons.mp hnd
    have h1 : recordMsgId cache i = cache ++ [i] := by rw [recordMsgId, if_neg hi]
    have h2 : ∀ j ∈ ids, j ∉ cache ++ [i] := by
      intro j hj
      simp only [List.mem_append, List.mem_singleton]
      rintro (hc | rfl)
      · exact hdisj j (List.mem_cons_of_mem _ hj) hc
      · exact hnd'.1 hj
    calc recordAllMsgIds cache (i :: ids)
        = recordAllMsgIds (cache ++ [i]) ids := by
          simp [recordAllMsgIds, List.foldl_cons, h1]
      _ = (cache ++ [i]) ++ ids := recordAllMsgIds_of_nodup ids (cache ++ [i]) hnd'.2 h2
      _ = cache ++ i :: ids := by simp

theorem length_recordAllMsgIds_le (ids cache : List String) :
    (recordAllMsgIds cache ids).length ≤ cache.length + ids.length := by
  induction ids generalizing cache with
  | nil => simp [recordAllMsgIds]
  | cons i ids ih =>
    have hr : (recordMsgId cache i).length ≤ cache.length + 1 := by
      rw [recordMsgId]
      split
      · omega
      · simp
    have h := ih (recordMsgId cache i)
    simp only [recordAllMsgIds, List.foldl_cons] at h ⊢
    simp only [List.length_cons]
    omega

theorem bigIds_nodup : bigIds.Nodup := by
  apply List.Nodup.map
  · intro a b hab
    have h2 : List.replicate a 'a' = List.replicate b 'a' := congrArg String.data hab
    have h3 := congrArg List.length h2
    simpa using h3
  · exact List.nodup_range 1001

theorem handleRawMessage_spec (s : ClientState) (e : Envelope) :
    s.handleRawMessage e =
      if e.msg_id ∈ s.processedMsgIds then (s, [])
      else ({ s with processedMsgIds := s.processedMsgIds ++ [e.msg_id] },
            if dispatchesToHandler e.method then [e] else []) := by
  obtain ⟨id, μ⟩ := e
  cases μ <;> rfl

theorem processMessages_filter_nil_of_mem (es : List Envelope) (s : ClientState) (m : String)
    (hm : m ∈ s.processedMsgIds) :
    ((processMessages s es).2.filter (fun e => e.msg_id == m)) = [] := by
  induction es generalizing s with
  | nil => simp [processMessages]
  | cons e es ih =>
    simp only [processMessages, handleRawMessage_spec]
    by_cases h : e.msg_id ∈ s.processedMsgIds
    · simpa [h] using ih s hm
    · have hne : (e.msg_id == m) = false := by
        simp only [beq_eq_false_iff_ne, ne_eq]
        intro heq
        exact h (heq ▸ hm)
      have hm2 : m ∈ s.processedMsgIds ++ [e.msg_id] := List.mem_append_left _ hm
      by_cases hd : dispatchesToHandler e.method
      · simpa [h, hd, hne] using ih _ hm2
      · simpa [h, hd] using ih _ hm2

/-! ## Claim theorems -/

/-- C1: the claim asserts that for every accepted `session.prompt` at
most one terminal `session.promptResponse` is sent, even when a
`session.cancel` races the in-flight dispatch. The code violates this:
in the race scenario the cancel path sends a `cancelled` response and
the dispatch-completion path, seeing the shared `turn.cancelled` flag,
sends a second one, so two terminal responses leave for one accepted
prompt. -/
theorem double_terminal_on_cancel_race :
    (raceFinal.sent.filter (fun r => r.prompt_id == "prompt-1")).length = 2 ∧
    raceFinal.sent = [⟨"sess-1", "prompt-1", .cancelled, none, none⟩,
                      ⟨"sess-1", "prompt-1", .cancelled, none, none⟩] := by
  decide

/-- C2: if `session.cancel` for a Turn is processed before that Turn's
dispatch call resolves, the terminal response sent on the
dispatch-completion path has `stop_reason = cancelled` and carries no
content, whatever final text the dispatch resolves with. -/
theorem cancel_precedence (s : EngineState) (sessionId promptId : String)
    (finalText : List Char) :
    (dispatchResolve (handleCancel (promptAccepted s sessionId promptId).1 sessionId promptId)
        (promptAccepted s sessionId promptId).2 (some finalText)).sent =
      (handleCancel (promptAccepted s sessionId promptId).1 sessionId promptId).sent ++
        [⟨sessionId, promptId, .cancelled, none, none⟩] := by
  simp only [promptAccepted, handleCancel, dispatchResolve, turnCancelled,
    alistGet_set_self, alistGet_update_self, Option.map_some, Option.getD_some]
  simp

/-- C3: in any inbound sequence that repeats a `msg_id` (all its
occurrences being re-deliveries of a handler-dispatched envelope) the
method handler fires exactly once for that id while the dedup cache
retains it; repeats are dropped silently. -/
theorem dedup_fires_exactly_once (s : ClientState) (es : List Envelope) (m : String)
    (hnot : m ∉ s.processedMsgIds)
    (hocc : ∃ e ∈ es, e.msg_id = m)
    (hmeth : ∀ e ∈ es, e.msg_id = m → dispatchesToHandler e.method = true) :
    ((processMessages s es).2.filter (fun e => e.msg_id == m)).length = 1 := by
  induction es generalizing s with
  | nil => simp at hocc
  | cons e es ih =>
    simp only [processMessages, handleRawMessage_spec]
    by_cases he : e.msg_id = m
    · have hd : dispatchesToHandler e.method = true := hmeth e (by simp) he
      have hniC : e.msg_id ∉ s.processedMsgIds := by rwa [he]
      have hmem : m ∈ s.processedMsgIds ++ [e.msg_id] := by
        simp [he]
      have htail := processMessages_filter_nil_of_mem es
        { s with processedMsgIds := s.processedMsgIds ++ [e.msg_id] } m hmem
      rw [he] at htail
      simp [hnot, hd, he, htail]
    · have hne : (e.msg_id == m) = false := by
        simp only [beq_eq_false_iff_ne, ne_eq]
        exact he
      obtain ⟨e0, he0, he0m⟩ := hocc
      have he0' : e0 ∈ es := by
        rcases List.mem_cons.mp he0 with rfl | h
        · exact absurd he0m he
        · exact h
      have hocc' : ∃ x ∈ es, x.msg_id = m := ⟨e0, he0', he0m⟩
      have hmeth' : ∀ x ∈ es, x.msg_id = m → dispatchesToHandler x.method = true :=
        fun x hx => hmeth x (List.mem_cons_of_mem _ hx)
      by_cases h : e.msg_id ∈ s.processedMsgIds
      · simpa [h, hne] using ih s hnot hocc' hmeth'
      · have hnot2 : m ∉ s.processedMsgIds ++ [e.msg_id] := by
          simp only [List.mem_append, List.mem_singleton]
          rintro (hc | rfl)
          · exact hnot hc
          · exact he rfl
        by_cases hd : dispatchesToHandler e.method
        · simpa [h, hd, hne] using ih _ hnot2 hocc' hmeth'
        · simpa [h, hd] using ih _ hnot2 hocc' hmeth'

/-- C3 witness: the prompt envelope `"m1"` delivered three times to a
fresh client is dispatched to the handler exactly once. -/
theorem dedup_fires_exactly_once_witness :
    ("m1" ∉ ClientState.initial.processedMsgIds ∧
      (∃ e ∈ replayedStream, e.msg_id = "m1") ∧
      (∀ e ∈ replayedStream, e.msg_id = "m1" → dispatchesToHandler e.method = true)) ∧
    ((processMessages ClientState.initial replayedStream).2.filter
        (fun e => e.msg_id == "m1")).length = 1 :=
  ⟨⟨by decide, by decide, by decide⟩,
    dedup_fires_exactly_once ClientState.initial replayedStream "m1"
      (by decide) (by decide) (by decide)⟩

/-- C4 counterexample: the claim asserts a fresh-`msg_id` prompt whose
`(sessionId, turnId)` matches a registered Turn is rejected, with no
second dispatch. In the code a second identical prompt starts a second
agent dispatch and allocates a fresh `ActiveTurn` object. -/
theorem duplicate_prompt_starts_second_dispatch :
    duplicatePromptRun.1.dispatchCalls = [("sess-1", "prompt-1"), ("sess-1", "prompt-1")] ∧
    duplicatePromptRun.2.ref ≠ (promptAccepted EngineState.initial "sess-1" "prompt-1").2.ref := by
  decide

/-- C4 amended: a duplicate `(sessionId, turnId)` prompt with a fresh
`msg_id` is not rejected — a second agent dispatch is started, and the
new registration overwrites the registry entry, which still holds
exactly one binding for that `prompt_id` (the newest Turn). -/
theorem duplicate_prompt_overwrites (s : EngineState) (sessionId promptId : String) :
    (promptAccepted (promptAccepted s sessionId promptId).1 sessionId promptId).1.dispatchCalls =
        s.dispatchCalls ++ [(sessionId, promptId), (sessionId, promptId)] ∧
    alistGet (promptAccepted (promptAccepted s sessionId promptId).1 sessionId promptId).1.activeTurns
        promptId =
      some (promptAccepted (promptAccepted s sessionId promptId).1 sessionId promptId).2.ref ∧
    ((promptAccepted (promptAccepted s sessionId promptId).1 sessionId
          promptId).1.activeTurns.filter (fun q => q.1 == promptId)).length = 1 ∧
    (promptAccepted (promptAccepted s sessionId promptId).1 sessionId promptId).2.ref ≠
      (promptAccepted s sessionId promptId).2.ref := by
  refine ⟨?_, ?_, ?_, ?_⟩
  · simp [promptAccepted]
  · simp [promptAccepted, alistGet_set_self]
  · simp [promptAccepted, alistSet_filter_self]
  · simp [promptAccepted]

/-- C5 counterexample: the claim asserts the dedup cache never exceeds
the ceiling during record operations, eviction being triggered whenever
the ceiling is exceeded. In the code `record` never evicts (only the
periodic sweep does): 1001 distinct ids recorded from an empty cache
leave 1001 stored ids, above the ceiling of 1000. -/
theorem record_ops_exceed_ceiling :
    MAX_MSG_ID_CACHE < (recordAllMsgIds [] bigIds).length := by
  rw [recordAllMsgIds_of_nodup bigIds [] bigIds_nodup (by simp)]
  simp [bigIds, MAX_MSG_ID_CACHE]

/-- C5 amended: record operations alone never evict, so the cache may
exceed the ceiling between sweeps; the bound holds at sweep points —
immediately after any run of the cleanup the size is at most the
ceiling (a sweep finding more than 1000 entries cuts down to 500). -/
theorem msgIdSweep_le_ceiling (cache : List String) :
    (msgIdSweep cache).length ≤ MAX_MSG_ID_CACHE := by
  rw [msgIdSweep]
  split
  · have h := length_recordAllMsgIds_le (cache.drop (cache.length - MAX_MSG_ID_CACHE / 2)) []
    have h2 : (cache.drop (cache.length - MAX_MSG_ID_CACHE / 2)).length ≤ MAX_MSG_ID_CACHE / 2 := by
      simp only [List.length_drop]
      omega
    simp only [List.length_nil] at h
    omega
  · omega

/-- C6: a sweep that finds more than the ceiling of 1000 entries evicts
down to exactly 500, and the retained ids are exactly the 500
most-recently-inserted ones, in insertion order (the suffix of the
insertion-ordered cache). -/
theorem sweep_keeps_newest_half (cache : List String) (hnd : cache.Nodup)
    (h : MAX_MSG_ID_CACHE < cache.length) :
    (msgIdSweep cache).length = MAX_MSG_ID_CACHE / 2 ∧
      msgIdSweep cache = cache.drop (cache.length - MAX_MSG_ID_CACHE / 2) := by
  have hdrop : msgIdSweep cache = cache.drop (cache.length - MAX_MSG_ID_CACHE / 2) := by
    rw [msgIdSweep, if_pos (show cache.length > MAX_MSG_ID_CACHE from h),
        recordAllMsgIds_of_nodup _ []
          (List.Nodup.sublist (List.drop_sublist _ _) hnd) (by simp)]
    simp
  refine ⟨?_, hdrop⟩
  rw [hdrop]
  simp only [List.length_drop]
  have hM : MAX_MSG_ID_CACHE = 1000 := by norm_num [MAX_MSG_ID_CACHE]
  omega

/-- C6 witness: sweeping a duplicate-free cache of 1001 ids keeps
exactly the newest 500. -/
theorem sweep_keeps_newest_half_witness :
    bigIds.Nodup ∧ MAX_MSG_ID_CACHE < bigIds.length ∧
      ((msgIdSweep bigIds).length = MAX_MSG_ID_CACHE / 2 ∧
        msgIdSweep bigIds = bigIds.drop (bigIds.length - MAX_MSG_ID_CACHE / 2)) :=
  ⟨bigIds_nodup, by simp [bigIds, MAX_MSG_ID_CACHE],
    sweep_keeps_newest_half bigIds bigIds_nodup (by simp [bigIds, MAX_MSG_ID_CACHE])⟩

/-- C7: scheduling the n-th reconnect increments `reconnectAttempts` to
n and arms the timer with `min(base · 1.5^(n-1), cap)`; the delays are
non-decreasing in n; with base 3000 ms attempts 1..5 yield 3000, 4500,
6750, 10125 and 15187.5 ms; `handleOpen` (successful transport open)
resets `reconnectAttempts` to 0 while `stop` leaves it unchanged. -/
theorem backoff_schedule_spec (cfg : WSConfig) (s : ClientState) (n : Nat)
    (hbase : 0 ≤ cfg.reconnectInterval)
    (hroom : cfg.maxReconnectAttempts = 0 ∨ s.reconnectAttempts < cfg.maxReconnectAttempts) :
    ((scheduleReconnect cfg s).1.reconnectAttempts = s.reconnectAttempts + 1 ∧
      (scheduleReconnect cfg s).2 =
        some (reconnectDelay cfg.reconnectInterval (s.reconnectAttempts + 1))) ∧
    reconnectDelay cfg.reconnectInterval n ≤ reconnectDelay cfg.reconnectInterval (n + 1) ∧
    (reconnectDelay 3000 1 = 3000 ∧ reconnectDelay 3000 2 = 4500 ∧
      reconnectDelay 3000 3 = 6750 ∧ reconnectDelay 3000 4 = 10125 ∧
      reconnectDelay 3000 5 = 30375 / 2) ∧
    s.handleOpen.reconnectAttempts = 0 ∧
    s.stop.reconnectAttempts = s.reconnectAttempts := by
  have hcond : ¬(0 < cfg.maxReconnectAttempts ∧ cfg.maxReconnectAttempts ≤ s.reconnectAttempts) := by
    rcases hroom with h | h <;> omega
  refine ⟨?_, ?_, ?_, rfl, rfl⟩
  · rw [scheduleReconnect, if_neg hcond]
    exact ⟨rfl, rfl⟩
  · rw [reconnectDelay, reconnectDelay]
    apply min_le_min _ le_rfl
    apply mul_le_mul_of_nonneg_left _ hbase
    exact pow_le_pow_right₀ (by norm_num) (by omega)
  · refine ⟨?_, ?_, ?_, ?_, ?_⟩ <;> norm_num [reconnectDelay, min_def]

/-- C7 witness: the backoff properties at the default configuration
(base 3000 ms, unlimited attempts) and a fresh client. -/
theorem backoff_schedule_spec_witness :
    ((0 : ℚ) ≤ backoffConfig.reconnectInterval ∧
      (backoffConfig.maxReconnectAttempts = 0 ∨
        ClientState.initial.reconnectAttempts < backoffConfig.maxReconnectAttempts)) ∧
    (((scheduleReconnect backoffConfig ClientState.initial).1.reconnectAttempts =
        ClientState.initial.reconnectAttempts + 1 ∧
      (scheduleReconnect backoffConfig ClientState.initial).2 =
        some (reconnectDelay backoffConfig.reconnectInterval
          (ClientState.initial.reconnectAttempts + 1))) ∧
      reconnectDelay backoffConfig.reconnectInterval 3 ≤
        reconnectDelay backoffConfig.reconnectInterval (3 + 1) ∧
      (reconnectDelay 3000 1 = 3000 ∧ reconnectDelay 3000 2 = 4500 ∧
        reconnectDelay 3000 3 = 6750 ∧ reconnectDelay 3000 4 = 10125 ∧
        reconnectDelay 3000 5 = 30375 / 2) ∧
      ClientState.initial.handleOpen.reconnectAttempts = 0 ∧
      ClientState.initial.stop.reconnectAttempts = ClientState.initial.reconnectAttempts) :=
  ⟨⟨by norm_num [backoffConfig], Or.inl rfl⟩,
    backoff_schedule_spec backoffConfig ClientState.initial 3
      (by norm_num [backoffConfig]) (Or.inl rfl)⟩

/-- C8: on a cumulative-only assistant event (no delta) whose text
strictly extends the already-emitted cursor, the engine emits exactly
the suffix beyond the cursor as a `message_chunk` and advances the
cursor to the new cumulative text. -/
theorem cumulative_suffix_emission (s : EngineState) (c : DispatchCtx) (t : List Char)
    (hnc : turnCancelled s c.ref = false)
    (hne : c.lastEmittedText ≠ t)
    (hpre : c.lastEmittedText <+: t) :
    onAssistantEvent s c none (some t) =
      ({ c with lastEmittedText := t },
        some ⟨c.sessionId, c.promptId, .message_chunk,
          some ⟨t.drop c.lastEmittedText.length⟩, none⟩) := by
  have hlt : c.lastEmittedText.length < t.length := by
    rcases lt_or_eq_of_le hpre.length_le with h | h
    · exact h
    · exact absurd (List.IsPrefix.eq_of_length hpre h) hne
  have htne : t.isEmpty = false := by
    cases t
    · simp at hlt
    · simp
  have hts : (t.drop c.lastEmittedText.length).isEmpty = false := by
    rw [List.isEmpty_eq_false]
    intro h
    have := congrArg List.length h
    simp only [List.length_drop, List.length_nil] at this
    omega
  rw [onAssistantEvent, if_neg (by simp [hnc])]
  rw [if_pos (by simp [truthyText, htne, bne_iff_ne]; exact Ne.symm hne)]
  simp [truthyText, hts]

/-- C8 witness: cumulative texts "Hi" then "Hi there" emit the chunk
" there" on the second event, never "Hi there" twice. -/
theorem cumulative_suffix_emission_witness :
    (turnCancelled chunkRun.1 chunkCtx.ref = false ∧
      chunkCtx.lastEmittedText ≠ "Hi there".toList ∧
      chunkCtx.lastEmittedText <+: "Hi there".toList) ∧
    onAssistantEvent chunkRun.1 chunkCtx none (some "Hi there".toList) =
      ({ chunkCtx with lastEmittedText := "Hi there".toList },
        some ⟨chunkCtx.sessionId, chunkCtx.promptId, .message_chunk,
          some ⟨("Hi there".toList).drop chunkCtx.lastEmittedText.length⟩, none⟩) :=
  ⟨⟨by decide, by decide, by decide⟩,
    cumulative_suffix_emission chunkRun.1 chunkCtx "Hi there".toList
      (by decide) (by decide) (by decide)⟩

/-- C9: the claim asserts that a tool invocation whose events carry no
runtime `toolCallId` gets one stable synthesized id across all its
updates. The code pre-increments the counter on every such event, so the
`start` and `result` updates of a single invocation carry the distinct
ids "tc-1" and "tc-2". -/
theorem synthesized_tool_id_not_stable :
    updateToolId toolStartEmission.2 = some "tc-1" ∧
    updateToolId toolResultEmission.2 = some "tc-2" ∧
    ("tc-1" : String) ≠ "tc-2" := by
  decide

/-- C10: `stop()` empties the processed-message-id cache, clears all
three timers and sets the state to disconnected; consequently an
envelope processed before `stop()` is dispatched to its handler again
when re-delivered after a subsequent `start()`. -/
theorem stop_resets_dedup (s : ClientState) (m : String) (μ : Method)
    (hm : m ∈ s.processedMsgIds) (hμ : dispatchesToHandler μ = true) :
    s.stop.processedMsgIds = [] ∧
    s.stop.state = .disconnected ∧
    s.stop.reconnectTimer = false ∧
    s.stop.heartbeatTimer = false ∧
    s.stop.msgIdCleanupTimer = false ∧
    (s.stop.start.handleRawMessage ⟨m, μ⟩).2 = [⟨m, μ⟩] := by
  refine ⟨rfl, rfl, rfl, rfl, rfl, ?_⟩
  have hstart : s.stop.start = s.stop.connect.startMsgIdCleanup := by
    rw [ClientState.start, if_neg]
    rintro (h | h) <;> simp [ClientState.stop] at h
  rw [hstart, handleRawMessage_spec]
  simp [ClientState.connect, ClientState.startMsgIdCleanup, ClientState.stop, hμ]

/-- C10 witness: a client that processed the prompt envelope `"m1"` is
stopped; after a restart, re-delivering `"m1"` dispatches it to the
handler again. -/
theorem stop_resets_dedup_witness :
    ("m1" ∈ processedClient.processedMsgIds ∧ dispatchesToHandler .sessionPrompt = true) ∧
    (processedClient.stop.processedMsgIds = [] ∧
      processedClient.stop.state = .disconnected ∧
      processedClient.stop.reconnectTimer = false ∧
      processedClient.stop.heartbeatTimer = false ∧
      processedClient.stop.msgIdCleanupTimer = false ∧
      (processedClient.stop.start.handleRawMessage ⟨"m1", .sessionPrompt⟩).2 =
        [⟨"m1", .sessionPrompt⟩]) :=
  ⟨⟨by decide, rfl⟩,
    stop_resets_dedup processedClient "m1" .sessionPrompt (by decide) rfl⟩

end AGP
